import Mathlib

/-!
# Verification of `companyDescriptionEmbeddingsSearch.py`

A shallow embedding of the single-file Streamlit application that embeds a
free-text company description via an external embedding provider and runs a
vector-similarity query against an external MongoDB collection.

Modelling conventions:
* Python strings are Lean `String`s; Python truthiness of a string is the
  test against `""`, and truthiness of an optional list is "present and
  non-empty".
* The embedding vector is a Python list of floats that this program only
  passes through, never inspects arithmetically; its scalars are modelled as
  `Rat`, an opaque stand-in.
* The two external collaborators (OpenAI embeddings endpoint, MongoDB
  `aggregate`) are function parameters returning `Except String _`: an
  exception raised by the library call is the `.error` case.
* `st.cache_data` memoisation is explicit cache-state passing keyed on the
  function's arguments, and `st.session_state.search_results_df` is an
  explicit `Option (List R)` (`none` = no DataFrame stored, `some rows` =
  `pd.DataFrame(rows)`).
* Every observable side effect of one form submission (session-state
  assignment, `st.warning`, outbound embedding-API request, database
  aggregate call) is an `Event` in the order the script performs it.
-/

namespace CompanySearch

/-- The characters Python's `str.strip()` removes. -/
def pyIsSpace (c : Char) : Bool :=
  c = ' ' || c = '\t' || c = '\n' || c = '\r' || c = '\x0b' || c = '\x0c'

/-- Python `s.strip()`: drop leading and trailing whitespace. -/
def pyStrip (s : String) : String :=
  String.mk (((s.toList.dropWhile pyIsSpace).reverse.dropWhile pyIsSpace).reverse)

/-- Split a character list on a separator character; Python `split` keeps
empty chunks, and splitting the empty input yields one empty chunk. -/
def splitChars (sep : Char) : List Char → List (List Char)
  | [] => [[]]
  | c :: cs =>
    if c = sep then [] :: splitChars sep cs
    else
      match splitChars sep cs with
      | [] => [[c]]
      | w :: ws => (c :: w) :: ws

/-- Python `s.split(sep)` for a one-character separator. -/
def pySplit (s : String) (sep : Char) : List String :=
  (splitChars sep s.toList).map String.mk

/-- Python `s.replace(old, new)` for one-character `old` and `new`. -/
def pyReplaceChar (old new : Char) (s : String) : String :=
  String.mk (s.toList.map (fun c => if c = old then new else c))

/-- Scalars of an embedding vector.  The program never computes with them, so
an opaque numeric stand-in for the floats suffices. -/
abbrev EmbFloat := Rat

/-- The Python list of floats returned by the provider. -/
abbrev EmbeddingVector := List EmbFloat

/-- Python truthiness of an optional list value (`if query_vector:`,
`if search_results:`): `None` and the empty list are falsy. -/
def optListTruthy {α : Type} : Option (List α) → Bool
  | none => false
  | some l => !l.isEmpty

/-- A value of the MongoDB `filter` document: an equality constraint or an
`$in` constraint. -/
inductive FilterCond where
  | eqStr (value : String)
  | inStrs (values : List String)
deriving DecidableEq, Repr

/-- The `$vectorSearch` stage dictionary built in `vector_search`. -/
structure VectorSearchStage where
  index : String
  path : String
  queryVector : EmbeddingVector
  numCandidates : Int
  limit : Int
  filter : List (String × FilterCond)
deriving DecidableEq, Repr

/-- One entry of the `$project` stage. -/
inductive ProjSpec where
  | meta (name : String)
  | incl
  | excl
deriving DecidableEq, Repr

/-- A stage of the aggregation pipeline `vector_search` constructs. -/
inductive PipelineStage where
  | vectorSearch (s : VectorSearchStage)
  | project (fields : List (String × ProjSpec))
deriving DecidableEq, Repr

abbrev Pipeline := List PipelineStage

/-- The filter document of the search stage:
`{"company_headquarters_country": "USA",
  **({"industry": {"$in": industries_list}} if industries_list else {})}`. -/
def searchFilter (industries_list : List String) : List (String × FilterCond) :=
  [("company_headquarters_country", FilterCond.eqStr "USA")] ++
    (if !industries_list.isEmpty then
      [("industry", FilterCond.inStrs industries_list)] else [])

/-- The `search_stage` dictionary of `vector_search`. -/
def mkSearchStage (query_vector : EmbeddingVector) (num_candidates limit : Int)
    (industries_list : List String) : VectorSearchStage :=
  { index := "vector_index_for_company_search"
    path := "company_description_embedding"
    queryVector := query_vector
    numCandidates := num_candidates
    limit := limit
    filter := searchFilter industries_list }

/-- The fixed `$project` stage of the pipeline. -/
def projectFields : List (String × ProjSpec) :=
  [("score", ProjSpec.meta "vectorSearchScore"),
   ("company_name", ProjSpec.incl),
   ("company_description", ProjSpec.incl),
   ("company_headquarters_country", ProjSpec.incl),
   ("industry", ProjSpec.incl),
   ("_id", ProjSpec.excl)]

/-- Translation of `vector_search(query_vector, num_candidates, limit, industries_list)`.
`aggregate` is the external `collection.aggregate`; the result pairs the
returned value with the list of aggregation queries actually issued. -/
def vector_search {R : Type} (aggregate : Pipeline → Except String (List R))
    (query_vector : Option EmbeddingVector) (num_candidates limit : Int)
    (industries_list : List String) : Option (List R) × List Pipeline :=
  match query_vector with
  | none => (none, [])
  | some qv =>
    let search_stage := mkSearchStage qv num_candidates limit industries_list
    let pipeline : Pipeline :=
      [PipelineStage.vectorSearch search_stage, PipelineStage.project projectFields]
    match aggregate pipeline with
    | Except.ok results => (some results, [pipeline])
    | Except.error _ => (none, [pipeline])

/-- The `st.cache_data` store for `get_embedding`, keyed on the call's
arguments `(text, model)`; the stored value is the function's return value
(`None` from the exception handler is cached too, as `st.cache_data` caches
whatever the body returns). -/
abbrev EmbedCache := List ((String × String) × Option EmbeddingVector)

/-- Default value of `get_embedding`'s `model` parameter. -/
def defaultModel : String := "text-embedding-ada-002"

/-- Translation of `get_embedding(text, model)` under `@st.cache_data`.  `api` is the
external `openai_client.embeddings.create` call, mapped to the embedding of
its single input.  Returns the value, the updated cache, and the list of
input texts of the outbound provider requests actually issued. -/
def get_embedding (api : String → Except String EmbeddingVector)
    (cache : EmbedCache) (text model : String) :
    Option EmbeddingVector × EmbedCache × List String :=
  match cache.lookup (text, model) with
  | some v => (v, cache, [])
  | none =>
    let sent := pyReplaceChar '\n' ' ' text
    let value :=
      match api sent with
      | Except.ok emb => some emb
      | Except.error _ => none
    (value, ((text, model), value) :: cache, [sent])

/-- The industry parse on line 152:
`[ind.strip() for ind in industry_input.split(',') if ind.strip()] if industry_input else []`. -/
def parseIndustries (industry_input : String) : List String :=
  if industry_input ≠ "" then
    ((pySplit industry_input ',').filter (fun ind => pyStrip ind ≠ "")).map pyStrip
  else []

/-- Model of `st.number_input(min_value, max_value, value)`: the widget only ever
yields a value inside `[lo, hi]`, so a user choice `v` is clamped. -/
def numberInput (lo hi v : Int) : Int := max lo (min v hi)

/-- The widget value `limit_input = st.number_input(..., min_value=1, max_value=10000, ...)`
for an arbitrary user choice `u`. -/
def limitInputOf (u : Int) : Int := numberInput 1 10000 u

/-- The widget value `candidates_input = st.number_input(..., min_value=limit_input,
max_value=20000, ...)` for user choices `uLimit` and `uCand`. -/
def candidatesInputOf (uLimit uCand : Int) : Int :=
  numberInput (limitInputOf uLimit) 20000 uCand

/-- One observable side effect of a form submission, in program order:
an assignment to `st.session_state.search_results_df`, an `st.warning`, an
outbound embedding-provider request, or a database aggregate call. -/
inductive Event (R : Type) where
  | setState (s : Option (List R))
  | warn (msg : String)
  | embedApiCall (text : String)
  | dbAggregate (p : Pipeline)
deriving DecidableEq

/-- The submission handler (`if submit_button:` block, lines 143-162):
clears the session state, validates the description, embeds, searches, and
stores the outcome.  Returns the ordered list of observable events and the
updated embedding cache. -/
def handle_submit {R : Type} (api : String → Except String EmbeddingVector)
    (aggregate : Pipeline → Except String (List R)) (cache : EmbedCache)
    (description_input industry_input : String)
    (limit_input candidates_input : Int) : List (Event R) × EmbedCache :=
  let cleared : List (Event R) := [Event.setState none]
  if description_input = "" then
    (cleared ++ [Event.warn "Please enter a description to search for."], cache)
  else
    let e := get_embedding api cache description_input defaultModel
    let query_vector := e.1
    let cache' := e.2.1
    let embedEvents := cleared ++ e.2.2.map Event.embedApiCall
    if optListTruthy query_vector then
      let industries_list := parseIndustries industry_input
      let s := vector_search aggregate query_vector candidates_input limit_input
        industries_list
      let search_results := s.1
      let searchEvents := embedEvents ++ s.2.map Event.dbAggregate
      if optListTruthy search_results then
        (searchEvents ++ [Event.setState search_results], cache')
      else
        (searchEvents ++ [Event.setState (some [])], cache')
    else
      (embedEvents, cache')

/-- The value of `st.session_state.search_results_df` after replaying the
events of a submission over its previous value. -/
def finalState {R : Type} (prev : Option (List R)) (events : List (Event R)) :
    Option (List R) :=
  events.foldl (fun s e => match e with | Event.setState v => v | _ => s) prev

/-- The outbound embedding-provider requests among a submission's events. -/
def embedCallsOf {R : Type} (events : List (Event R)) : List String :=
  events.filterMap (fun e => match e with | Event.embedApiCall t => some t | _ => none)

/-- The database aggregate calls among a submission's events. -/
def dbQueriesOf {R : Type} (events : List (Event R)) : List Pipeline :=
  events.filterMap (fun e => match e with | Event.dbAggregate p => some p | _ => none)

/-- The `st.warning` messages among a submission's events. -/
def warningsOf {R : Type} (events : List (Event R)) : List String :=
  events.filterMap (fun e => match e with | Event.warn m => some m | _ => none)

/-- What the results section (lines 164-178) renders from the session state:
nothing when no search result is stored, the "no results" informational
notice when the stored DataFrame is empty, otherwise the subheading count
and the full table. -/
inductive Display (R : Type) where
  | nothing
  | noResultsNotice
  | table (rows : List R) (count : Nat)
deriving DecidableEq

/-- The results-display logic at the bottom of the script. -/
def render {R : Type} : Option (List R) → Display R
  | none => Display.nothing
  | some rows =>
    if rows.length = 0 then Display.noResultsNotice
    else Display.table rows rows.length

/-- Whether an event is an assignment to the session result state. -/
def isSetState {R : Type} : Event R → Bool
  | Event.setState _ => true
  | _ => false

/-- Checks that within a list of events, any assignment to the session
result state is the final event and stores a DataFrame (`some rows`, i.e.
the Empty or Populated state, never a reset to `Unset`). -/
def setOnlyAtEnd {R : Type} : List (Event R) → Bool
  | [] => true
  | Event.setState v :: rest => rest.isEmpty && v.isSome
  | _ :: rest => setOnlyAtEnd rest

/-- A document of the `companies_new_data_load` collection, as far as this
program reads it. -/
structure CompanyDoc where
  company_name : String
  company_description : String
  company_headquarters_country : String
  industry : String
  company_description_embedding : EmbeddingVector
deriving DecidableEq, Repr

/-- A result row after the `$project` stage. -/
structure CompanyRecord where
  score : EmbFloat
  company_name : String
  company_description : String
  company_headquarters_country : String
  industry : String
deriving DecidableEq, Repr

/-- Modelled from the spec: whether a document matches the `$vectorSearch`
filter document, whose only keys here are the hard-coded
headquarters-country equality and the optional industry `$in` inclusion. -/
def matchesFilter (conds : List (String × FilterCond)) (d : CompanyDoc) : Bool :=
  conds.all (fun kc =>
    match kc with
    | ("company_headquarters_country", FilterCond.eqStr v) =>
      d.company_headquarters_country = v
    | ("industry", FilterCond.inStrs vs) => vs.contains d.industry
    | _ => false)

/-- Insert into a list of scored documents keeping scores descending. -/
def insertByScoreDesc (x : EmbFloat × CompanyDoc) :
    List (EmbFloat × CompanyDoc) → List (EmbFloat × CompanyDoc)
  | [] => [x]
  | y :: ys => if y.1 ≤ x.1 then x :: y :: ys else y :: insertByScoreDesc x ys

/-- Sort scored documents by descending score. -/
def sortByScoreDesc (l : List (EmbFloat × CompanyDoc)) :
    List (EmbFloat × CompanyDoc) :=
  l.foldr insertByScoreDesc []

/-- Modelled from the spec: the external MongoDB execution of the two-stage
pipeline (`$vectorSearch` then `$project`), which is not code of this
repository.  Per the spec, the index examines up to `numCandidates`
approximate-nearest-neighbour candidates ranked by descending similarity,
applies the filter, and returns at most `limit` of them annotated with their
similarity score; `similarity` is the index's opaque scoring function. -/
def runAggregate (similarity : EmbeddingVector → EmbeddingVector → EmbFloat)
    (collection : List CompanyDoc) : Pipeline → List CompanyRecord
  | [PipelineStage.vectorSearch s, PipelineStage.project _] =>
    let scored := collection.map
      (fun d => (similarity s.queryVector d.company_description_embedding, d))
    let candidates := (sortByScoreDesc scored).take s.numCandidates.toNat
    let hits := candidates.filter (fun sd => matchesFilter s.filter sd.2)
    let top := hits.take s.limit.toNat
    top.map (fun sd =>
      { score := sd.1
        company_name := sd.2.company_name
        company_description := sd.2.company_description
        company_headquarters_country := sd.2.company_headquarters_country
        industry := sd.2.industry })
  | _ => []

/-! ## Concrete external behaviours used in closed runs -/

/-- An embedding provider that always answers with a fixed vector. -/
def apiConst : String → Except String EmbeddingVector := fun _ => Except.ok [1]

/-- An embedding provider whose call always raises. -/
def apiFail : String → Except String EmbeddingVector :=
  fun _ => Except.error "RateLimitError"

/-- An aggregate call that always raises `OperationFailure`. -/
def aggRaise : Pipeline → Except String (List Nat) :=
  fun _ => Except.error "OperationFailure"

/-- An aggregate call that always returns three fixed rows. -/
def aggThree : Pipeline → Except String (List Nat) := fun _ => Except.ok [7, 8, 9]

/-! ## General lemmas -/

theorem parseIndustries_eq_filter_map (s : String) :
    parseIndustries s = ((pySplit s ',').map pyStrip).filter (fun e => e ≠ "") := by
  by_cases h : s = ""
  · subst h; decide
  · simp only [parseIndustries, if_pos h, List.filter_map]
    rfl

theorem finalState_append {R : Type} (prev : Option (List R))
    (l l' : List (Event R)) :
    finalState prev (l ++ l') = finalState (finalState prev l) l' :=
  List.foldl_append _ _ _ _

theorem finalState_embed_events {R : Type} (s : Option (List R))
    (xs : List String) :
    finalState s (xs.map Event.embedApiCall) = s := by
  induction xs generalizing s with
  | nil => rfl
  | cons t ts ih => exact ih s

theorem dbQueriesOf_embed_events {R : Type} (xs : List String) :
    dbQueriesOf (R := R) (xs.map Event.embedApiCall) = [] := by
  induction xs with
  | nil => rfl
  | cons t ts ih => simp [dbQueriesOf, List.filterMap] at ih ⊢

theorem setOnlyAtEnd_append {R : Type} (xs tl : List (Event R))
    (h : ∀ e ∈ xs, isSetState e = false) :
    setOnlyAtEnd (xs ++ tl) = setOnlyAtEnd tl := by
  induction xs with
  | nil => rfl
  | cons e es ih =>
    have he := h e (List.mem_cons_self _ _)
    have hes := fun e' he' => h e' (List.mem_cons_of_mem _ he')
    cases e with
    | setState v => simp [isSetState] at he
    | warn m => simpa [setOnlyAtEnd] using ih hes
    | embedApiCall t => simpa [setOnlyAtEnd] using ih hes
    | dbAggregate p => simpa [setOnlyAtEnd] using ih hes

theorem handle_submit_shape {R : Type}
    (api : String → Except String EmbeddingVector)
    (aggregate : Pipeline → Except String (List R)) (cache : EmbedCache)
    (description_input industry_input : String)
    (limit_input candidates_input : Int) :
    ∃ mid tl, (handle_submit api aggregate cache description_input
        industry_input limit_input candidates_input).1 =
      Event.setState none :: (mid ++ tl) ∧
      (∀ e ∈ mid, isSetState e = false) ∧
      (tl = [] ∨ ∃ rows : List R, tl = [Event.setState (some rows)]) := by
  by_cases hd : description_input = ""
  · refine ⟨[Event.warn "Please enter a description to search for."], [],
      ?_, ?_, Or.inl rfl⟩
    · simp [handle_submit, hd]
    · intro e he
      simp only [List.mem_singleton] at he
      subst he; rfl
  · cases hq : optListTruthy
      (get_embedding api cache description_input defaultModel).1
    · refine ⟨(get_embedding api cache description_input
          defaultModel).2.2.map Event.embedApiCall, [], ?_, ?_, Or.inl rfl⟩
      · simp [handle_submit, hd, hq]
      · intro e he
        simp only [List.mem_map] at he
        obtain ⟨t, -, rfl⟩ := he; rfl
    · cases hs : optListTruthy (vector_search aggregate
        (get_embedding api cache description_input defaultModel).1
        candidates_input limit_input (parseIndustries industry_input)).1
      · refine ⟨(get_embedding api cache description_input
            defaultModel).2.2.map Event.embedApiCall ++
            (vector_search aggregate
              (get_embedding api cache description_input defaultModel).1
              candidates_input limit_input
              (parseIndustries industry_input)).2.map Event.dbAggregate,
          [Event.setState (some [])], ?_, ?_, Or.inr ⟨[], rfl⟩⟩
        · simp [handle_submit, hd, hq, hs, List.append_assoc]
        · intro e he
          simp only [List.mem_append, List.mem_map] at he
          rcases he with ⟨t, -, rfl⟩ | ⟨p, -, rfl⟩ <;> rfl
      · have hex : ∃ rows, (vector_search aggregate
            (get_embedding api cache description_input defaultModel).1
            candidates_input limit_input
            (parseIndustries industry_input)).1 = some rows := by
          cases hv : (vector_search aggregate
              (get_embedding api cache description_input defaultModel).1
              candidates_input limit_input
              (parseIndustries industry_input)).1 with
          | none => rw [hv] at hs; simp [optListTruthy] at hs
          | some rows => exact ⟨rows, rfl⟩
        obtain ⟨rows, hrows⟩ := hex
        refine ⟨(get_embedding api cache description_input
            defaultModel).2.2.map Event.embedApiCall ++
            (vector_search aggregate
              (get_embedding api cache description_input defaultModel).1
              candidates_input limit_input
              (parseIndustries industry_input)).2.map Event.dbAggregate,
          [Event.setState (some rows)], ?_, ?_, Or.inr ⟨rows, rfl⟩⟩
        · rw [hrows] at hs
          simp [handle_submit, hd, hq, hs, hrows, List.append_assoc]
        · intro e he
          simp only [List.mem_append, List.mem_map] at he
          rcases he with ⟨t, -, rfl⟩ | ⟨p, -, rfl⟩ <;> rfl

/-! ## Claim theorems -/

/-- C9: `vector_search` invoked with a `None` query vector returns `None`
immediately and issues no aggregation query, for all values of the other
three parameters. -/
theorem c9_none_vector_short_circuit {R : Type}
    (aggregate : Pipeline → Except String (List R))
    (num_candidates limit : Int) (industries_list : List String) :
    vector_search aggregate none num_candidates limit industries_list =
      (none, []) := rfl

/-- C5: a blank industry field attaches no industry filter to the query;
the input `"AI, SaaS , "` parses to exactly `["AI", "SaaS"]`; and in
general the input is split on commas, each entry stripped of surrounding
whitespace, and entries empty after stripping are dropped. -/
theorem c5_industry_parsing :
    (∀ qv num_candidates limit,
      (mkSearchStage qv num_candidates limit (parseIndustries "")).filter =
        [("company_headquarters_country", FilterCond.eqStr "USA")]) ∧
    parseIndustries "AI, SaaS , " = ["AI", "SaaS"] ∧
    (∀ s, parseIndustries s =
      ((pySplit s ',').map pyStrip).filter (fun e => e ≠ "")) := by
  refine ⟨fun qv nc l => rfl, by decide, parseIndustries_eq_filter_map⟩

/-- C10: industry parsing yields an ordered list, not a set: `"AI, AI"`
parses to `["AI", "AI"]`; a non-empty term occurs in the parse once per
comma-separated entry stripping to it; and the parse is a sublist of the
stripped entries, hence in the input's left-to-right order. -/
theorem c10_parse_is_ordered_list :
    parseIndustries "AI, AI" = ["AI", "AI"] ∧
    (∀ s t, t ≠ "" →
      (parseIndustries s).count t = (((pySplit s ',').map pyStrip)).count t) ∧
    (∀ s, (parseIndustries s).Sublist ((pySplit s ',').map pyStrip)) := by
  refine ⟨by decide, fun s t ht => ?_, fun s => ?_⟩
  · rw [parseIndustries_eq_filter_map]
    exact List.count_filter (by simpa using ht)
  · rw [parseIndustries_eq_filter_map]
    exact List.filter_sublist _

/-- C2 counterexample: the description `" "` is whitespace-only but not the
empty string, so Python's `if not description_input:` does not catch it: the
submission emits no warning, issues an outbound embedding call and a
database query, and leaves the session state set — refuting the claim at
this input. -/
theorem c2_counterexample :
    pyStrip " " = "" ∧ (" " : String) ≠ "" ∧
    warningsOf (handle_submit apiConst aggThree [] " " "" 1000 10000).1 = [] ∧
    embedCallsOf (handle_submit apiConst aggThree [] " " "" 1000 10000).1 =
      [" "] ∧
    dbQueriesOf (handle_submit apiConst aggThree [] " " "" 1000 10000).1 ≠
      [] ∧
    finalState none (handle_submit apiConst aggThree [] " " "" 1000 10000).1 =
      some [7, 8, 9] := by decide

/-- C2 (amended): for a submission whose description is exactly the empty
string, the handler emits the warning, contacts neither the embedding
provider nor the database, and leaves the session result state `Unset`;
whitespace-only but non-empty descriptions are not caught by this check. -/
theorem c2_empty_description_no_calls {R : Type}
    (api : String → Except String EmbeddingVector)
    (aggregate : Pipeline → Except String (List R)) (cache : EmbedCache)
    (industry_input : String) (limit_input candidates_input : Int)
    (prev : Option (List R)) :
    warningsOf (handle_submit api aggregate cache "" industry_input
        limit_input candidates_input).1 =
      ["Please enter a description to search for."] ∧
    embedCallsOf (handle_submit api aggregate cache "" industry_input
        limit_input candidates_input).1 = [] ∧
    dbQueriesOf (handle_submit api aggregate cache "" industry_input
        limit_input candidates_input).1 = [] ∧
    finalState prev (handle_submit api aggregate cache "" industry_input
        limit_input candidates_input).1 = none :=
  ⟨rfl, rfl, rfl, rfl⟩

/-- C1: run at a failing input — embedding succeeds, the aggregate call
raises — the handler falls into the `else` of `if search_results:` (`None`
is falsy like the empty list), stores an empty DataFrame, and the display
shows the "no results" notice.  The session state does not remain `Unset`
as the spec requires, exhibiting the divergence. -/
theorem c1_search_failure_sets_empty_state :
    embedCallsOf (handle_submit apiConst aggRaise []
        "AI startup for logistics" "" 1000 10000).1 =
      ["AI startup for logistics"] ∧
    (dbQueriesOf (handle_submit apiConst aggRaise []
        "AI startup for logistics" "" 1000 10000).1).length = 1 ∧
    finalState none (handle_submit apiConst aggRaise []
        "AI startup for logistics" "" 1000 10000).1 = some [] ∧
    render (finalState none (handle_submit apiConst aggRaise []
        "AI startup for logistics" "" 1000 10000).1) =
      Display.noResultsNotice := by decide

/-- C6 counterexample: `"a\nb"` and `"a b"` coincide under the claimed
cache key (newlines replaced by spaces), yet submitting the first and then
the second issues an outbound provider request both times — the second is
not served from the cache, so the cache is not keyed on the normalized
text. -/
theorem c6_counterexample :
    pyReplaceChar '\n' ' ' "a\nb" = "a b" ∧
    (get_embedding apiConst [] "a\nb" defaultModel).2.2 = ["a b"] ∧
    (get_embedding apiConst (get_embedding apiConst [] "a\nb" defaultModel).2.1
        "a b" defaultModel).2.2 = ["a b"] := by decide

/-- C6 (amended): the cache is keyed on the exact raw argument text (and
model name): a second call with the identical raw text issues no outbound
request; a single call issues at most one outbound request, and any request
actually sent carries the text with newlines replaced by spaces — the
normalization affects the payload, not the cache key. -/
theorem c6_cache_keyed_on_raw_text (api : String → Except String EmbeddingVector)
    (cache : EmbedCache) (text model : String) :
    (get_embedding api (get_embedding api cache text model).2.1 text
        model).2.2 = [] ∧
    (get_embedding api cache text model).2.2.length ≤ 1 ∧
    (∀ t ∈ (get_embedding api cache text model).2.2,
      t = pyReplaceChar '\n' ' ' text) := by
  cases h : cache.lookup (text, model) with
  | some v => simp [get_embedding, h]
  | none => simp [get_embedding, h, List.lookup]

theorem c6_witness : ("a b" : String) = pyReplaceChar '\n' ' ' "a\nb" :=
  (c6_cache_keyed_on_raw_text apiConst [] "a\nb" defaultModel).2.2 "a b"
    (by decide)

/-- C4: every aggregation query `vector_search` issues carries a
`$vectorSearch` stage whose filter contains the equality constraint
`company_headquarters_country = "USA"`, for every query vector, numeric
parameters, and industry list (empty included). -/
theorem c4_usa_filter_always_present {R : Type}
    (aggregate : Pipeline → Except String (List R))
    (query_vector : Option EmbeddingVector) (num_candidates limit : Int)
    (industries_list : List String) (p : Pipeline)
    (hp : p ∈ (vector_search aggregate query_vector num_candidates limit
        industries_list).2) :
    ∃ s, PipelineStage.vectorSearch s ∈ p ∧
      ("company_headquarters_country", FilterCond.eqStr "USA") ∈ s.filter := by
  cases query_vector with
  | none => simp [vector_search] at hp
  | some qv =>
    have hp' : p = [PipelineStage.vectorSearch
        (mkSearchStage qv num_candidates limit industries_list),
        PipelineStage.project projectFields] := by
      simp only [vector_search] at hp
      split at hp <;> simpa using hp
    refine ⟨mkSearchStage qv num_candidates limit industries_list, ?_, ?_⟩
    · rw [hp']; exact List.mem_cons_self _ _
    · exact List.mem_append_left _ (List.mem_singleton.mpr rfl)

theorem c4_witness :
    ∃ s, PipelineStage.vectorSearch s ∈
        ([PipelineStage.vectorSearch (mkSearchStage [1] 10 5 []),
          PipelineStage.project projectFields] : Pipeline) ∧
      ("company_headquarters_country", FilterCond.eqStr "USA") ∈ s.filter :=
  c4_usa_filter_always_present aggThree (some [1]) 10 5 [] _ (by decide)

/-- C3: on a submission with a non-empty description whose embedding call
fails (returns `None`), the session result state is still `Unset` at the
end of the submission and no search query is issued to the database. -/
theorem c3_embedding_failure_leaves_unset {R : Type}
    (api : String → Except String EmbeddingVector)
    (aggregate : Pipeline → Except String (List R)) (cache : EmbedCache)
    (description_input industry_input : String)
    (limit_input candidates_input : Int) (prev : Option (List R))
    (hd : description_input ≠ "")
    (he : (get_embedding api cache description_input defaultModel).1 = none) :
    finalState prev (handle_submit api aggregate cache description_input
        industry_input limit_input candidates_input).1 = none ∧
    dbQueriesOf (handle_submit api aggregate cache description_input
        industry_input limit_input candidates_input).1 = [] := by
  simp only [handle_submit, if_neg hd, he, optListTruthy, if_neg Bool.false_ne_true]
  constructor
  · rw [finalState_append]
    exact finalState_embed_events _ _
  · rw [dbQueriesOf, List.filterMap_append]
    have h1 : dbQueriesOf (R := R) [Event.setState none] = [] := rfl
    have h2 := dbQueriesOf_embed_events (R := R)
      (get_embedding api cache description_input defaultModel).2.2
    rw [dbQueriesOf] at h1 h2
    rw [h1, h2]
    rfl

theorem c3_witness :
    (("startup" : String) ≠ "") ∧
    ((get_embedding apiFail [] "startup" defaultModel).1 = none) ∧
    finalState (some [3]) (handle_submit apiFail aggThree [] "startup" ""
        1000 10000).1 = none ∧
    dbQueriesOf (handle_submit apiFail aggThree [] "startup" ""
        1000 10000).1 = [] :=
  ⟨by decide, by decide,
    c3_embedding_failure_leaves_unset apiFail aggThree [] "startup" ""
      1000 10000 (some [3]) (by decide) (by decide)⟩

/-- C8: on every submission the session result state is overwritten to
`Unset` before anything else happens (the clear is the submission's very
first event); any later state assignment is the submission's final event
and stores a DataFrame (the Empty or Populated state); and once the first
event has run, the state no longer depends on its pre-submission value, so
a previous search's result set is never displayed after a new submission
has started — including when the new submission fails at the embedding
step. -/
theorem c8_clear_first_set_last {R : Type}
    (api : String → Except String EmbeddingVector)
    (aggregate : Pipeline → Except String (List R)) (cache : EmbedCache)
    (description_input industry_input : String)
    (limit_input candidates_input : Int) :
    (handle_submit api aggregate cache description_input industry_input
        limit_input candidates_input).1.head? =
      some (Event.setState none) ∧
    setOnlyAtEnd (handle_submit api aggregate cache description_input
        industry_input limit_input candidates_input).1.tail = true ∧
    (∀ n : Nat, 1 ≤ n → ∀ prev : Option (List R),
      finalState prev ((handle_submit api aggregate cache description_input
          industry_input limit_input candidates_input).1.take n) =
        finalState none ((handle_submit api aggregate cache description_input
          industry_input limit_input candidates_input).1.take n)) := by
  obtain ⟨mid, tl, hsh, hmid, htl⟩ := handle_submit_shape api aggregate cache
    description_input industry_input limit_input candidates_input
  rw [hsh]
  refine ⟨rfl, ?_, ?_⟩
  · show setOnlyAtEnd (mid ++ tl) = true
    rw [setOnlyAtEnd_append mid tl hmid]
    rcases htl with rfl | ⟨rows, rfl⟩ <;> rfl
  · intro n hn prev
    obtain ⟨m, rfl⟩ : ∃ m, n = m + 1 :=
      ⟨n - 1, (Nat.succ_pred_eq_of_pos hn).symm⟩
    rw [List.take_succ_cons]
    rfl

theorem c8_witness :
    finalState (some [42])
        ((handle_submit apiConst aggThree [] "x" "" 1000 10000).1.take 1) =
      finalState none
        ((handle_submit apiConst aggThree [] "x" "" 1000 10000).1.take 1) :=
  (c8_clear_first_set_last apiConst aggThree [] "x" "" 1000 10000).2.2 1
    (by decide) (some [42])

/-- C7: the form widgets clamp the two numeric parameters so that every
search is issued with `candidatePoolSize ≥ resultLimit ≥ 1`; and, under the
spec's model of the external `$vectorSearch` execution, a successful search
returns at most `resultLimit` records. -/
theorem c7_limit_bounds (uL uC : Int) (qv : EmbeddingVector)
    (inds : List String)
    (similarity : EmbeddingVector → EmbeddingVector → EmbFloat)
    (coll : List CompanyDoc) :
    (1 ≤ limitInputOf uL ∧ limitInputOf uL ≤ candidatesInputOf uL uC) ∧
    (∀ rows,
      (vector_search (fun p => Except.ok (runAggregate similarity coll p))
        (some qv) (candidatesInputOf uL uC) (limitInputOf uL) inds).1 =
          some rows →
      (rows.length : Int) ≤ limitInputOf uL) := by
  have h1 : (1 : Int) ≤ limitInputOf uL := le_max_left _ _
  refine ⟨⟨h1, ?_⟩, ?_⟩
  · show limitInputOf uL ≤ max (limitInputOf uL) (min uC 20000)
    exact le_max_left _ _
  · intro rows hrows
    simp only [vector_search] at hrows
    injection hrows with hrows
    subst hrows
    simp only [runAggregate, List.length_map, List.length_take]
    refine le_trans (Nat.cast_le.mpr (min_le_left _ _)) ?_
    show ((limitInputOf uL).toNat : Int) ≤ limitInputOf uL
    rw [Int.toNat_of_nonneg (le_trans zero_le_one h1)]

theorem c7_witness :
    ((1 : Int) ≤ limitInputOf 1 ∧ limitInputOf 1 ≤ candidatesInputOf 1 10) ∧
    ((([⟨1, "Acme", "desc", "USA", "AI"⟩] : List CompanyRecord)).length :
      Int) ≤ limitInputOf 1 :=
  ⟨(c7_limit_bounds 1 10 [1] [] (fun _ _ => 1)
      [⟨"Acme", "desc", "USA", "AI", [1]⟩,
       ⟨"Bcme", "d2", "USA", "SaaS", [2]⟩]).1,
   (c7_limit_bounds 1 10 [1] [] (fun _ _ => 1)
      [⟨"Acme", "desc", "USA", "AI", [1]⟩,
       ⟨"Bcme", "d2", "USA", "SaaS", [2]⟩]).2
     [⟨1, "Acme", "desc", "USA", "AI"⟩] (by decide)⟩

theorem c10_witness :
    ("AI" : String) ≠ "" ∧
    (parseIndustries "AI, AI").count "AI" =
      (((pySplit "AI, AI" ',')).map pyStrip).count "AI" :=
  ⟨by decide, c10_parse_is_ordered_list.2.1 "AI, AI" "AI" (by decide)⟩

end CompanySearch
